import Mathlib

/-!
Verification of the matchmaking and rating core of the Steam wishlist
Elo ranker backend (`backend.py`).

Modelling conventions:
* Python floats are modelled as real numbers (`ℝ`); `10 ** x` becomes the
  real power `(10 : ℝ) ^ x` (`Real.rpow`).
* The wishlist JSON dict is modelled as an association list
  `List (String × Game)`; `dict.get` is `List.lookup`, and in-place
  mutation of a looked-up record is modelled by rewriting every entry
  stored under that key (`updateGame`), applied step by step in source
  order so that aliasing (`winner is loser` when both appids coincide)
  is reproduced faithfully.
* `random.choice` and `random.sample` are modelled by threading explicit
  oracle indices: `random.choice(cs)` becomes `cs.get? (r % cs.length)`
  and `random.sample(games, 2)` picks two distinct positions from the
  supplied indices.  Uniformity of the distribution is not modelled; the
  oracle index is universally quantified instead.
* Python's stable `sorted` is modelled by Mathlib's stable
  `List.insertionSort` (a stable ascending sort is uniquely determined
  by the comparison preorder, so the choice of algorithm is immaterial).
* `int(len(xs) * 0.1)` is modelled as `xs.length / 10` (natural
  division); the float product `n * 0.1` truncates to `n / 10` for every
  list length that can occur.
-/

namespace EloRanker

/-- Model of a wishlist game record (`backend.py`, class `Game` / the
JSON records created by `/import/json`). -/
structure Game where
  appid : String
  title : String
  image_url : Option String
  image_path : Option String
  rating : ℝ
  wins : Nat
  losses : Nat
  played : Nat

/-- Model of one history record appended by `vote` / `pass_vote`.  The
`vote` endpoint appends no `pass` key, which reads back as false, so the
flag is modelled as a `Bool` that `vote` sets to `false` and `pass_vote`
sets to `true`. -/
structure HistoryEntry where
  winner : String
  winner_title : String
  winner_image : Option String
  loser : String
  loser_title : String
  loser_image : Option String
  r_w_before : ℝ
  r_l_before : ℝ
  r_w_after : ℝ
  r_l_after : ℝ
  k : ℝ
  is_pass : Bool

/-- The persistent state touched by the match resolver: the wishlist
file, the history file and the stats counter. -/
structure State where
  store : List (String × Game)
  history : List HistoryEntry
  total_played : Nat

/-- Model of the pairing preference toggles (query parameters of
`/pair`, mirroring the `Settings` model). -/
structure Prefs where
  prefer_close_rating : Bool
  prefer_far_rating : Bool
  prefer_lower_played : Bool
  prefer_new_choices : Bool
  choices_history_length : Nat

/-- Model of one genre record from `genres.json`. -/
structure GenreRec where
  id : String
  name : String
  games : List String

/-- Random oracle indices standing in for `random.choice` (r1, r2) and
`random.sample` (r3, r4) draws inside one `/pair` call. -/
structure Oracle where
  r1 : Nat
  r2 : Nat
  r3 : Nat
  r4 : Nat

/-- Elo expectation, `expected_score` in `backend.py`:
`1.0 / (1.0 + 10 ** ((r_b - r_a) / 400.0))`. -/
noncomputable def expected_score (r_a r_b : ℝ) : ℝ :=
  1 / (1 + (10 : ℝ) ^ ((r_b - r_a) / 400))

/-- Elo update, `update_elo` in `backend.py`. -/
noncomputable def update_elo (r_winner r_loser k : ℝ) : ℝ × ℝ :=
  let e_win := expected_score r_winner r_loser
  let e_lose := expected_score r_loser r_winner
  (r_winner + k * (1 - e_win), r_loser + k * (0 - e_lose))

/-- C1: for all (finite-float, modelled as real) ratings and K-factor,
the rating update returns exactly the pair
`(rW + k*(1 - expected rW rL), rL + k*(0 - expected rL rW))` with
`expected rA rB = 1/(1 + 10^((rB - rA)/400))`; as a Lean function it is
pure and deterministic by construction. -/
theorem update_elo_formula (rW rL k rA rB : ℝ) :
    update_elo rW rL k =
      (rW + k * (1 - expected_score rW rL), rL + k * (0 - expected_score rL rW)) ∧
    expected_score rA rB = 1 / (1 + (10 : ℝ) ^ ((rB - rA) / 400)) :=
  ⟨rfl, rfl⟩

lemma rpow_ten_pos (x : ℝ) : 0 < (10 : ℝ) ^ x :=
  Real.rpow_pos_of_pos (by norm_num) x

lemma expected_score_pos (r_a r_b : ℝ) : 0 < expected_score r_a r_b := by
  have h := rpow_ten_pos ((r_b - r_a) / 400)
  unfold expected_score
  positivity

lemma expected_score_lt_one (r_a r_b : ℝ) : expected_score r_a r_b < 1 := by
  have h := rpow_ten_pos ((r_b - r_a) / 400)
  unfold expected_score
  rw [div_lt_one (by linarith)]
  linarith

lemma expected_score_add (r_a r_b : ℝ) :
    expected_score r_a r_b + expected_score r_b r_a = 1 := by
  unfold expected_score
  have hx : (r_a - r_b) / 400 = -((r_b - r_a) / 400) := by ring
  rw [hx, Real.rpow_neg (by norm_num)]
  have h := rpow_ten_pos ((r_b - r_a) / 400)
  field_simp
  ring

/-- C4: for all ratings and every positive K-factor the update strictly
increases the winner's rating and strictly decreases the loser's, and
the two expectations sum to one (exactly, in the real-number model). -/
theorem update_elo_strict_and_expected_sum (rW rL rA rB k : ℝ) (hk : 0 < k) :
    rW < (update_elo rW rL k).1 ∧ (update_elo rW rL k).2 < rL ∧
    expected_score rA rB + expected_score rB rA = 1 := by
  refine ⟨?_, ?_, expected_score_add rA rB⟩
  · have h1 := expected_score_lt_one rW rL
    have h2 := expected_score_pos rW rL
    unfold update_elo
    have : 0 < k * (1 - expected_score rW rL) := by
      apply mul_pos hk; linarith
    simpa using by linarith
  · have h2 := expected_score_pos rL rW
    unfold update_elo
    have : k * (0 - expected_score rL rW) < 0 := by
      apply mul_neg_of_pos_of_neg hk; linarith
    simpa using by linarith

/-- Witness for C4 at ratings 1500, 1600 with K = 48. -/
theorem update_elo_strict_and_expected_sum_witness :
    (0 : ℝ) < 48 ∧
    (1500 < (update_elo 1500 1600 48).1 ∧ (update_elo 1500 1600 48).2 < 1600 ∧
      expected_score 1500 1600 + expected_score 1600 1500 = 1) :=
  ⟨by norm_num, update_elo_strict_and_expected_sum 1500 1600 1500 1600 48 (by norm_num)⟩

/-- Helper modelling Python's `x or y` on the (optional) image fields of
a history entry. -/
def orElseOpt (x y : Option String) : Option String :=
  match x with
  | some v => some v
  | none => y

/-- Model of mutating the record stored under key `id` in the wishlist
dict: every entry stored under that key is rewritten (a Python dict has
unique keys, so at most one entry is affected). -/
def updateGame (st : List (String × Game)) (id : String) (f : Game → Game) :
    List (String × Game) :=
  st.map (fun p => if p.1 = id then (p.1, f p.2) else p)

/-- Store part of the shared `vote` / `pass_vote` body: the winner and
loser records are mutated field by field in source order (new ratings,
then `wins`, `losses` and the two `played` bumps), so when both appids
name the same record the aliasing of the Python dict is reproduced. -/
def applyMatchStore (st : List (String × Game)) (wId lId : String)
    (rw_new rl_new : ℝ) : List (String × Game) :=
  let st1 := updateGame st wId (fun g => { g with rating := rw_new })
  let st2 := updateGame st1 lId (fun g => { g with rating := rl_new })
  let st3 := updateGame st2 wId (fun g => { g with wins := g.wins + 1 })
  let st4 := updateGame st3 lId (fun g => { g with losses := g.losses + 1 })
  let st5 := updateGame st4 wId (fun g => { g with played := g.played + 1 })
  updateGame st5 lId (fun g => { g with played := g.played + 1 })

/-- Shared body of the `vote` and `pass_vote` endpoints once winner and
loser are known: compute new ratings, mutate the two records field by
field in source order, append one history entry and bump the counter.
`vote` increments via `int(d.get(f, 0)) + 1` and `pass_vote` via
`d[f] += 1`; both are total-field increments in this model. -/
noncomputable def resolveMatch (s : State) (wId : String) (w : Game)
    (lId : String) (lo : Game) (k : ℝ) (isPass : Bool) : State :=
  let r_w := w.rating
  let r_l := lo.rating
  let rs := update_elo r_w r_l k
  { store := applyMatchStore s.store wId lId rs.1 rs.2
    history := s.history ++
      [{ winner := w.appid
         winner_title := w.title
         winner_image := orElseOpt w.image_path w.image_url
         loser := lo.appid
         loser_title := lo.title
         loser_image := orElseOpt lo.image_path lo.image_url
         r_w_before := r_w
         r_l_before := r_l
         r_w_after := rs.1
         r_l_after := rs.2
         k := k
         is_pass := isPass }]
    total_played := s.total_played + 1 }

/-- Model of the `/vote` endpoint (`vote` in `backend.py`): look up both
appids, raise `Invalid appid(s)` if either is missing, otherwise resolve
the match with the named winner. -/
noncomputable def vote (s : State) (winner_appid loser_appid : String)
    (k : ℝ) : Except String State :=
  match s.store.lookup winner_appid, s.store.lookup loser_appid with
  | some winner, some loser =>
    Except.ok (resolveMatch s winner_appid winner loser_appid loser k false)
  | _, _ => Except.error ("Invalid appid(s)")

/-- Model of the `/pass` endpoint (`pass_vote` in `backend.py`): the
game with the lower-or-equal rating is declared winner (ties favour the
first argument), then the match is resolved exactly like a vote with
`is_pass` true. -/
noncomputable def pass_vote (s : State) (a_appid b_appid : String)
    (k : ℝ) : Except String State :=
  match s.store.lookup a_appid, s.store.lookup b_appid with
  | some a, some b =>
    if a.rating ≤ b.rating then
      Except.ok (resolveMatch s a_appid a b_appid b k true)
    else
      Except.ok (resolveMatch s b_appid b a_appid a k true)
  | _, _ => Except.error ("Invalid appid(s)")

/-- One resolver call as a state transformer: a failing call leaves the
persisted state untouched (the endpoints raise before writing). -/
noncomputable def runVote (s : State) (w l : String) (k : ℝ) : State :=
  match vote s w l k with
  | Except.ok s' => s'
  | Except.error _ => s

/-- Pass analogue of `runVote`. -/
noncomputable def runPass (s : State) (a b : String) (k : ℝ) : State :=
  match pass_vote s a b k with
  | Except.ok s' => s'
  | Except.error _ => s

/-- One resolver operation (a `/vote` or `/pass` request). -/
inductive Op where
  | voteOp (w l : String) (k : ℝ)
  | passOp (a b : String) (k : ℝ)

/-- Apply one operation to the persisted state. -/
noncomputable def runOp (s : State) : Op → State
  | Op.voteOp w l k => runVote s w l k
  | Op.passOp a b k => runPass s a b k

/-- Apply a sequence of resolver operations in order. -/
noncomputable def runOps (ops : List Op) (s : State) : State :=
  ops.foldl runOp s

/-- The bookkeeping invariant of the game store: every stored game has
`played = wins + losses`. -/
def StoreInv (s : State) : Prop :=
  ∀ p ∈ s.store, p.2.played = p.2.wins + p.2.losses

lemma lookup_cons_if (k x : String) (v : Game) (r : List (String × Game)) :
    List.lookup x ((k, v) :: r) = if x = k then some v else List.lookup x r := by
  rw [List.lookup_cons]
  cases hxk : x == k
  · have h : ¬ x = k := by simpa using hxk
    simp [h]
  · have h : x = k := by simpa using hxk
    simp [h]

lemma lookup_updateGame (st : List (String × Game)) (id x : String)
    (f : Game → Game) :
    (updateGame st id f).lookup x =
      if x = id then (st.lookup x).map f else st.lookup x := by
  induction st with
  | nil => simp [updateGame]
  | cons p tl ih =>
    rcases p with ⟨kp, vp⟩
    simp only [updateGame, List.map_cons] at ih ⊢
    by_cases h1 : kp = id
    · subst h1
      by_cases h2 : x = kp
      · subst h2
        simp [lookup_cons_if, ih]
      · simp [lookup_cons_if, h2, ih]
    · by_cases h2 : x = kp
      · subst h2
        simp [lookup_cons_if, h1, ih]
      · simp [lookup_cons_if, h1, h2, ih]

lemma applyMatchStore_inv (st : List (String × Game)) (wId lId : String)
    (rw_new rl_new : ℝ)
    (h : ∀ p ∈ st, p.2.played = p.2.wins + p.2.losses) :
    ∀ p ∈ applyMatchStore st wId lId rw_new rl_new,
      p.2.played = p.2.wins + p.2.losses := by
  intro p hp
  simp only [applyMatchStore, updateGame, List.map_map] at hp
  obtain ⟨q, hq, rfl⟩ := List.mem_map.mp hp
  have hinv := h q hq
  by_cases hw : q.1 = wId
  · by_cases hl : q.1 = lId
    · subst hw
      subst hl
      simp [Function.comp]
      omega
    · subst hw
      simp [Function.comp, hl]
      omega
  · by_cases hl : q.1 = lId
    · subst hl
      simp [Function.comp, hw]
      omega
    · simp [Function.comp, hw, hl]
      omega

lemma storeInv_resolveMatch (s : State) (wId : String) (w : Game)
    (lId : String) (lo : Game) (k : ℝ) (isPass : Bool) (h : StoreInv s) :
    StoreInv (resolveMatch s wId w lId lo k isPass) := by
  intro p hp
  exact applyMatchStore_inv s.store wId lId _ _ h p hp

lemma vote_ok_cases (s : State) (w l : String) (k : ℝ) (s' : State)
    (hv : vote s w l k = Except.ok s') :
    ∃ gw gl, s.store.lookup w = some gw ∧ s.store.lookup l = some gl ∧
      s' = resolveMatch s w gw l gl k false := by
  unfold vote at hv
  cases hw : s.store.lookup w <;> cases hl : s.store.lookup l <;>
    rw [hw, hl] at hv <;> simp at hv
  exact ⟨_, _, rfl, rfl, hv.symm⟩

lemma pass_ok_cases (s : State) (a b : String) (k : ℝ) (s' : State)
    (hp : pass_vote s a b k = Except.ok s') :
    ∃ ga gb, s.store.lookup a = some ga ∧ s.store.lookup b = some gb ∧
      ((ga.rating ≤ gb.rating ∧ s' = resolveMatch s a ga b gb k true) ∨
       (¬ ga.rating ≤ gb.rating ∧ s' = resolveMatch s b gb a ga k true)) := by
  unfold pass_vote at hp
  cases ha : s.store.lookup a <;> cases hb : s.store.lookup b <;>
    rw [ha, hb] at hp <;> simp at hp
  rename_i ga gb
  by_cases hc : ga.rating ≤ gb.rating
  · rw [if_pos hc] at hp
    simp at hp
    exact ⟨ga, gb, rfl, rfl, Or.inl ⟨hc, hp.symm⟩⟩
  · rw [if_neg hc] at hp
    simp at hp
    exact ⟨ga, gb, rfl, rfl, Or.inr ⟨hc, hp.symm⟩⟩

lemma storeInv_runOp (s : State) (op : Op) (h : StoreInv s) :
    StoreInv (runOp s op) := by
  cases op with
  | voteOp w l k =>
    simp only [runOp, runVote]
    cases hv : vote s w l k with
    | error e => exact h
    | ok s' =>
      obtain ⟨gw, gl, _, _, rfl⟩ := vote_ok_cases s w l k s' hv
      exact storeInv_resolveMatch _ _ _ _ _ _ _ h
  | passOp a b k =>
    simp only [runOp, runPass]
    cases hp : pass_vote s a b k with
    | error e => exact h
    | ok s' =>
      obtain ⟨ga, gb, _, _, hcase⟩ := pass_ok_cases s a b k s' hp
      rcases hcase with ⟨_, rfl⟩ | ⟨_, rfl⟩ <;>
        exact storeInv_resolveMatch _ _ _ _ _ _ _ h

/-- C2: if every stored game satisfies `played = wins + losses`, the
invariant still holds for every stored game after any sequence of vote
and pass operations (failing calls leave the state unchanged). -/
theorem vote_pass_preserve_invariant (ops : List Op) (s : State)
    (h : StoreInv s) : StoreInv (runOps ops s) := by
  induction ops generalizing s with
  | nil => exact h
  | cons op tl ih => exact ih (runOp s op) (storeInv_runOp s op h)

/-- Concrete game fixture used by witnesses. -/
noncomputable def gA : Game :=
  { appid := "a", title := "A", image_url := none, image_path := none,
    rating := 1500, wins := 0, losses := 0, played := 0 }

/-- Concrete game fixture used by witnesses. -/
noncomputable def gB : Game :=
  { appid := "b", title := "B", image_url := none, image_path := none,
    rating := 1600, wins := 0, losses := 0, played := 0 }

/-- Concrete game fixture used by witnesses. -/
noncomputable def gC : Game :=
  { appid := "c", title := "C", image_url := none, image_path := none,
    rating := 1400, wins := 0, losses := 0, played := 0 }

/-- Concrete three-game state used by witnesses. -/
noncomputable def s0 : State :=
  { store := [(("a"), gA), (("b"), gB), (("c"), gC)],
    history := [], total_played := 0 }

/-- Witness for C2 on a concrete store and a concrete vote/pass
sequence. -/
theorem vote_pass_preserve_invariant_witness :
    StoreInv s0 ∧
    StoreInv (runOps [Op.voteOp ("a") ("b") 48, Op.passOp ("b") ("c") 24] s0) := by
  have h0 : StoreInv s0 := by
    intro p hp
    fin_cases hp <;> rfl
  exact ⟨h0, vote_pass_preserve_invariant _ s0 h0⟩

lemma resolveMatch_frame (s : State) (wId : String) (w : Game) (lId : String)
    (lo : Game) (k : ℝ) (ip : Bool) (x : String)
    (hxw : x ≠ wId) (hxl : x ≠ lId) :
    (resolveMatch s wId w lId lo k ip).store.lookup x = s.store.lookup x := by
  simp [resolveMatch, applyMatchStore, lookup_updateGame, hxw, hxl]

/-- C9: a successful vote only touches the two records named winner and
loser, and a successful pass only the two named games; every other
stored game record (all of its fields) is unchanged. -/
theorem vote_pass_frame (s : State) (w l a b x : String) (k k' : ℝ)
    (sv sp : State)
    (hv : vote s w l k = Except.ok sv)
    (hp : pass_vote s a b k' = Except.ok sp)
    (hxw : x ≠ w) (hxl : x ≠ l) (hxa : x ≠ a) (hxb : x ≠ b) :
    sv.store.lookup x = s.store.lookup x ∧
    sp.store.lookup x = s.store.lookup x := by
  constructor
  · obtain ⟨gw, gl, _, _, rfl⟩ := vote_ok_cases s w l k sv hv
    exact resolveMatch_frame s w gw l gl k false x hxw hxl
  · obtain ⟨ga, gb, _, _, hcase⟩ := pass_ok_cases s a b k' sp hp
    rcases hcase with ⟨_, rfl⟩ | ⟨_, rfl⟩
    · exact resolveMatch_frame s a ga b gb k' true x hxa hxb
    · exact resolveMatch_frame s b gb a ga k' true x hxb hxa

/-- Witness for C9: after a vote between a and b (and a pass between a
and b), the record of game c is untouched. -/
theorem vote_pass_frame_witness :
    (runVote s0 ("a") ("b") 48).store.lookup ("c") = s0.store.lookup ("c") ∧
    (runPass s0 ("a") ("b") 24).store.lookup ("c") = s0.store.lookup ("c") := by
  have hc : gA.rating ≤ gB.rating := by
    show (1500 : ℝ) ≤ 1600
    norm_num
  have ha : s0.store.lookup ("a") = some gA := rfl
  have hb : s0.store.lookup ("b") = some gB := rfl
  have hp : pass_vote s0 ("a") ("b") 24 =
      Except.ok (resolveMatch s0 ("a") gA ("b") gB 24 true) := by
    simp [pass_vote, ha, hb, hc]
  have hrp : runPass s0 ("a") ("b") 24 =
      resolveMatch s0 ("a") gA ("b") gB 24 true := by
    simp [runPass, hp]
  rw [hrp]
  exact vote_pass_frame s0 ("a") ("b") ("a") ("b") ("c") 48 24 _ _ rfl hp
    (by decide) (by decide) (by decide) (by decide)

/-- C10: when either appid is missing from the store, vote and pass fail
with the invalid-appid error and the persisted state (store, history and
counter) is exactly the pre-call state. -/
theorem vote_pass_unknown_no_change (s : State) (w l : String) (k : ℝ)
    (h : s.store.lookup w = none ∨ s.store.lookup l = none) :
    vote s w l k = Except.error ("Invalid appid(s)") ∧
    pass_vote s w l k = Except.error ("Invalid appid(s)") ∧
    runVote s w l k = s ∧ runPass s w l k = s := by
  have hv : vote s w l k = Except.error ("Invalid appid(s)") := by
    cases h1 : s.store.lookup w <;> cases h2 : s.store.lookup l <;>
      simp [vote, h1, h2] <;> simp_all
  have hp : pass_vote s w l k = Except.error ("Invalid appid(s)") := by
    cases h1 : s.store.lookup w <;> cases h2 : s.store.lookup l <;>
      simp [pass_vote, h1, h2] <;> simp_all
  refine ⟨hv, hp, ?_, ?_⟩
  · simp [runVote, hv]
  · simp [runPass, hp]

/-- Witness for C10 at a concrete store lacking the appid z. -/
theorem vote_pass_unknown_no_change_witness :
    (s0.store.lookup ("z") = none ∨ s0.store.lookup ("b") = none) ∧
    (vote s0 ("z") ("b") 48 = Except.error ("Invalid appid(s)") ∧
     pass_vote s0 ("z") ("b") 48 = Except.error ("Invalid appid(s)") ∧
     runVote s0 ("z") ("b") 48 = s0 ∧ runPass s0 ("z") ("b") 48 = s0) :=
  ⟨Or.inl rfl, vote_pass_unknown_no_change s0 ("z") ("b") 48 (Or.inl rfl)⟩

/-- C3: a pass between two stored games declares as winner the game
whose current rating is lower or equal (a tie favours the first
argument), recording it as the winner of the appended history entry and
as the winner side of the rating update. -/
theorem pass_declares_lower_rated_winner (s : State) (aId bId : String)
    (ga gb : Game) (k : ℝ)
    (ha : s.store.lookup aId = some ga) (hb : s.store.lookup bId = some gb) :
    ∃ s' e, pass_vote s aId bId k = Except.ok s' ∧
      s'.history = s.history ++ [e] ∧ e.is_pass = true ∧
      (ga.rating ≤ gb.rating →
        e.winner = ga.appid ∧ e.loser = gb.appid ∧
        e.r_w_before = ga.rating ∧ e.r_l_before = gb.rating) ∧
      (¬ ga.rating ≤ gb.rating →
        e.winner = gb.appid ∧ e.loser = ga.appid ∧
        e.r_w_before = gb.rating ∧ e.r_l_before = ga.rating) := by
  by_cases hc : ga.rating ≤ gb.rating
  · refine ⟨resolveMatch s aId ga bId gb k true, _, ?_, rfl, rfl,
      fun _ => ⟨rfl, rfl, rfl, rfl⟩, fun hcon => absurd hc hcon⟩
    simp [pass_vote, ha, hb, hc]
  · refine ⟨resolveMatch s bId gb aId ga k true, _, ?_, rfl, rfl,
      fun hcon => absurd hcon hc, fun _ => ⟨rfl, rfl, rfl, rfl⟩⟩
    simp [pass_vote, ha, hb, hc]

/-- Witness for C3 on the concrete store (ratings 1500 vs 1600, so the
first argument wins). -/
theorem pass_declares_lower_rated_winner_witness :
    (s0.store.lookup ("a") = some gA ∧ s0.store.lookup ("b") = some gB) ∧
    (∃ s' e, pass_vote s0 ("a") ("b") 24 = Except.ok s' ∧
      s'.history = s0.history ++ [e] ∧ e.is_pass = true ∧
      (gA.rating ≤ gB.rating →
        e.winner = gA.appid ∧ e.loser = gB.appid ∧
        e.r_w_before = gA.rating ∧ e.r_l_before = gB.rating) ∧
      (¬ gA.rating ≤ gB.rating →
        e.winner = gB.appid ∧ e.loser = gA.appid ∧
        e.r_w_before = gB.rating ∧ e.r_l_before = gA.rating)) :=
  ⟨⟨rfl, rfl⟩, pass_declares_lower_rated_winner s0 ("a") ("b") gA gB 24 rfl rfl⟩

/-- C8 (amended): a successful vote between two distinct stored appids
bumps winner wins/played and loser losses/played by one, installs the
two rating-engine outputs, appends exactly one non-pass history entry
and increments the counter; a vote naming a missing appid fails. -/
theorem vote_updates_both_games (s : State) (w l : String) (gw gl : Game)
    (k : ℝ) (hne : w ≠ l)
    (hw : s.store.lookup w = some gw) (hl : s.store.lookup l = some gl) :
    (∃ s', vote s w l k = Except.ok s' ∧
      s'.store.lookup w =
        some { gw with
          rating := (update_elo gw.rating gl.rating k).1
          wins := gw.wins + 1
          played := gw.played + 1 } ∧
      s'.store.lookup l =
        some { gl with
          rating := (update_elo gw.rating gl.rating k).2
          losses := gl.losses + 1
          played := gl.played + 1 } ∧
      (∃ e, s'.history = s.history ++ [e] ∧ e.is_pass = false ∧
        e.winner = gw.appid ∧ e.loser = gl.appid) ∧
      s'.total_played = s.total_played + 1) ∧
    (∀ w' l', (s.store.lookup w' = none ∨ s.store.lookup l' = none) →
      vote s w' l' k = Except.error ("Invalid appid(s)")) := by
  constructor
  · refine ⟨resolveMatch s w gw l gl k false, ?_, ?_, ?_,
      ⟨_, rfl, rfl, rfl, rfl⟩, rfl⟩
    · simp [vote, hw, hl]
    · simp [resolveMatch, applyMatchStore, lookup_updateGame, hne,
        Ne.symm hne, hw]
    · simp [resolveMatch, applyMatchStore, lookup_updateGame, hne,
        Ne.symm hne, hl]
  · intro w' l' h
    cases h1 : s.store.lookup w' <;> cases h2 : s.store.lookup l' <;>
      simp [vote, h1, h2] <;> simp_all

/-- Witness for the amended C8 on the concrete store. -/
theorem vote_updates_both_games_witness :
    (("a" : String) ≠ "b" ∧ s0.store.lookup ("a") = some gA ∧
      s0.store.lookup ("b") = some gB) ∧
    (∃ s', vote s0 ("a") ("b") 48 = Except.ok s' ∧
      s'.store.lookup ("a") =
        some { gA with
          rating := (update_elo gA.rating gB.rating 48).1
          wins := gA.wins + 1
          played := gA.played + 1 } ∧
      s'.store.lookup ("b") =
        some { gB with
          rating := (update_elo gA.rating gB.rating 48).2
          losses := gB.losses + 1
          played := gB.played + 1 } ∧
      (∃ e, s'.history = s0.history ++ [e] ∧ e.is_pass = false ∧
        e.winner = gA.appid ∧ e.loser = gB.appid) ∧
      s'.total_played = s0.total_played + 1) :=
  ⟨⟨by decide, rfl, rfl⟩,
    ((vote_updates_both_games s0 ("a") ("b") gA gB 48 (by decide) rfl rfl).1)⟩

lemma expected_score_self (r : ℝ) : expected_score r r = 1 / 2 := by
  unfold expected_score
  norm_num [Real.rpow_zero]

/-- C8 counterexample: a vote whose winner and loser appids coincide
succeeds, but the single record's played count rises by 2 (not 1), its
losses also rise, and its final rating is the loser-side engine output
(which differs from the winner-side output), refuting the claim as
stated for that input. -/
theorem vote_same_appid_counterexample :
    ∃ s' g, vote s0 ("a") ("a") 48 = Except.ok s' ∧
      s'.store.lookup ("a") = some g ∧
      gA.played = 0 ∧ g.played = 2 ∧ g.wins = 1 ∧ g.losses = 1 ∧
      g.rating = (update_elo gA.rating gA.rating 48).2 ∧
      (update_elo gA.rating gA.rating 48).1 ≠
        (update_elo gA.rating gA.rating 48).2 := by
  refine ⟨_, _, rfl, rfl, rfl, rfl, rfl, rfl, rfl, ?_⟩
  have hr : gA.rating = (1500 : ℝ) := rfl
  have hup : update_elo (1500 : ℝ) 1500 48 = (1524, 1476) := by
    unfold update_elo
    rw [expected_score_self]
    norm_num
  rw [hr, hup]
  norm_num

/-- Lexicographic comparison of Python sort-key tuples (Python compares
tuples of numbers elementwise, shorter prefix first). -/
def keyLe : List ℝ → List ℝ → Prop
  | [], _ => True
  | _ :: _, [] => False
  | a :: as, b :: bs => a < b ∨ (a = b ∧ keyLe as bs)

noncomputable instance keyLeDec : (ks ks' : List ℝ) → Decidable (keyLe ks ks')
  | [], _ => isTrue trivial
  | _ :: _, [] => isFalse id
  | a :: as, b :: bs =>
    haveI := keyLeDec as bs
    inferInstanceAs (Decidable (a < b ∨ (a = b ∧ keyLe as bs)))

lemma keyLe_total : ∀ ks ks' : List ℝ, keyLe ks ks' ∨ keyLe ks' ks
  | [], [] => Or.inl trivial
  | [], _ :: _ => Or.inl trivial
  | _ :: _, [] => Or.inr trivial
  | a :: as, b :: bs => by
    rcases lt_trichotomy a b with h | h | h
    · exact Or.inl (Or.inl h)
    · rcases keyLe_total as bs with h2 | h2
      · exact Or.inl (Or.inr ⟨h, h2⟩)
      · exact Or.inr (Or.inr ⟨h.symm, h2⟩)
    · exact Or.inr (Or.inl h)

lemma keyLe_trans : ∀ ks1 ks2 ks3 : List ℝ,
    keyLe ks1 ks2 → keyLe ks2 ks3 → keyLe ks1 ks3
  | [], _, _, _, _ => trivial
  | _ :: _, [], _, h1, _ => absurd h1 id
  | _ :: _, _ :: _, [], _, h2 => absurd h2 id
  | a :: as, b :: bs, c :: cs, h1, h2 => by
    rcases h1 with h1 | ⟨h1e, h1r⟩ <;> rcases h2 with h2 | ⟨h2e, h2r⟩
    · exact Or.inl (lt_trans h1 h2)
    · exact Or.inl (h2e ▸ h1)
    · exact Or.inl (h1e ▸ h2)
    · exact Or.inr ⟨h1e.trans h2e, keyLe_trans as bs cs h1r h2r⟩

/-- Appids appearing in the last `n` history entries (the set built from
`recent_hist[-n:]` in `sort_key`, collecting winner and loser of each;
only membership matters, so a list models the Python set). -/
def recentAppids (hist : List HistoryEntry) (n : Nat) : List String :=
  ((hist.drop (hist.length - n)).map (fun h => h.winner)) ++
  ((hist.drop (hist.length - n)).map (fun h => h.loser))

/-- Composite sort key built by `sort_key` inside `multi_sort`: the
components are appended in the fixed order recently-seen flag, played
count, rating distance (close beats far when both toggles are set, and
the distance term exists only when a reference game `g1` is given). -/
noncomputable def sortKey (prefs : Prefs) (hist : List HistoryEntry)
    (g1 : Option Game) (g : Game) : List ℝ :=
  (if prefs.prefer_new_choices then
    [if g.appid ∈ recentAppids hist prefs.choices_history_length then
      (1 : ℝ) else 0]
  else []) ++
  (if prefs.prefer_lower_played then [(g.played : ℝ)] else []) ++
  (match g1 with
   | some g1v =>
     if prefs.prefer_close_rating then [|g.rating - g1v.rating|]
     else if prefs.prefer_far_rating then [-|g.rating - g1v.rating|]
     else []
   | none => [])

/-- The ordering by which `multi_sort` sorts candidates. -/
noncomputable def gameLe (prefs : Prefs) (hist : List HistoryEntry)
    (g1 : Option Game) (g g' : Game) : Prop :=
  keyLe (sortKey prefs hist g1 g) (sortKey prefs hist g1 g')

noncomputable instance gameLeDec (prefs : Prefs) (hist : List HistoryEntry)
    (g1 : Option Game) : DecidableRel (gameLe prefs hist g1) :=
  fun _ _ => keyLeDec _ _

instance gameLeTotal (prefs : Prefs) (hist : List HistoryEntry)
    (g1 : Option Game) : IsTotal Game (gameLe prefs hist g1) :=
  ⟨fun _ _ => keyLe_total _ _⟩

instance gameLeTrans (prefs : Prefs) (hist : List HistoryEntry)
    (g1 : Option Game) : IsTrans Game (gameLe prefs hist g1) :=
  ⟨fun _ _ _ => keyLe_trans _ _ _⟩

/-- Model of `multi_sort`: Python's stable ascending `sorted` by the
composite key (a stable ascending sort is uniquely determined by the
key preorder, so Mathlib's stable insertion sort computes it). -/
noncomputable def multiSort (prefs : Prefs) (hist : List HistoryEntry)
    (games : List Game) (g1 : Option Game) : List Game :=
  List.insertionSort (gameLe prefs hist g1) games

/-- Model of `pick_from_top`: the slice bound `max(2, int(0.1 * len))`
is computed on the full sorted list, a (truthy) exclusion filter is
applied, the list is cut to the bound and one `random.choice` is drawn
from it, modelled by the oracle index `r`; an empty cut yields `None`. -/
def pick_from_top (sorted_games : List Game) (exclude_appid : Option String)
    (r : Nat) : Option Game :=
  let top_n := max 2 (sorted_games.length / 10)
  let candidates :=
    match exclude_appid with
    | some ex =>
      if ex = "" then sorted_games
      else sorted_games.filter (fun g => g.appid != ex)
    | none => sorted_games
  let cut := candidates.take top_n
  if cut.isEmpty then none
  else cut.get? (r % cut.length)

/-- Second position drawn by `random.sample(games, 2)`: an index among
the remaining positions once `i'` is taken. -/
def pos2 (n i' j : Nat) : Nat :=
  if j % (n - 1) < i' then j % (n - 1) else j % (n - 1) + 1

lemma pos2_lt (n i' j : Nat) (hn : 2 ≤ n) : pos2 n i' j < n := by
  unfold pos2
  have h : j % (n - 1) < n - 1 := Nat.mod_lt j (by omega)
  split <;> omega

lemma pos2_ne (n i' j : Nat) (hn : 2 ≤ n) (hi : i' < n) : pos2 n i' j ≠ i' := by
  unfold pos2
  have h : j % (n - 1) < n - 1 := Nat.mod_lt j (by omega)
  split <;> omega

/-- Model of `random.sample(games, 2)`: two distinct positions of the
list selected by the oracle indices (which position pair is drawn is
oracle-determined; the uniform distribution is not modelled). -/
def sample2 (l : List Game) (i j : Nat) : Option (Game × Game) :=
  if h : 2 ≤ l.length then
    some (l.get ⟨i % l.length, Nat.mod_lt i (by omega)⟩,
          l.get ⟨pos2 l.length (i % l.length) j,
                 pos2_lt l.length (i % l.length) j h⟩)
  else none

/-- The `g1, g2 = random.sample(games, 2)` fallback of `/pair`; a sub-2
population (unreachable behind the length guard) is the `ValueError`
that `random.sample` raises. -/
def samplePair (games : List Game) (o : Oracle) : Except String (Game × Game) :=
  match sample2 games o.r3 o.r4 with
  | some p => Except.ok p
  | none => Except.error ("Sample larger than population or is negative")

/-- Candidate list of `/pair`: all wishlist games, filtered to a genre's
member appids when a truthy genre name is supplied; an unknown genre is
the genre-not-found error. -/
def candidateGames (store : List (String × Game))
    (genres : List (String × GenreRec)) (genre : Option String) :
    Except String (List Game) :=
  let games0 := store.map (fun p => p.2)
  match genre with
  | some gn =>
    if gn = "" then Except.ok games0
    else
      match genres.lookup gn with
      | none => Except.error ("Genre not found")
      | some gr => Except.ok (games0.filter (fun g => gr.games.contains g.appid))
  | none => Except.ok games0

/-- Challenger-mode test of `/pair`: `if challenger and challenger in
data`, yielding the pinned `g1 = data[challenger]`. -/
def challengerLookup (store : List (String × Game))
    (challenger : Option String) : Option (String × Game) :=
  match challenger with
  | some c =>
    if c = "" then none
    else (store.lookup c).map (fun g => (c, g))
  | none => none

/-- Model of the `/pair` endpoint selection logic (`pair` in
`backend.py`): genre filtering, the 2-candidate guard, challenger mode
pinning `g1` and sampling only the opponent, free mode sampling `g1`
from the sorted candidates and `g2` from the re-sorted remainder, and
the random-sample fallback when a pick comes back `None`.  In free mode
a `None` first pick would crash Python with a `TypeError` on
`g1["appid"]` before the fallback line; that (unreachable) path is
modelled as an error. -/
noncomputable def pair (s : State) (genres : List (String × GenreRec))
    (prefs : Prefs) (challenger genre : Option String) (o : Oracle) :
    Except String (Game × Game) :=
  match candidateGames s.store genres genre with
  | Except.error e => Except.error e
  | Except.ok games =>
    if games.length < 2 then
      Except.error ("Need at least 2 games in wishlist")
    else
      match challengerLookup s.store challenger with
      | some cg =>
        let possible_opponents := games.filter (fun g => g.appid != cg.1)
        if possible_opponents.isEmpty then
          Except.error ("Not enough games to find an opponent.")
        else
          match pick_from_top
              (multiSort prefs s.history possible_opponents (some cg.2))
              none o.r1 with
          | some g2 => Except.ok (cg.2, g2)
          | none => samplePair games o
      | none =>
        match pick_from_top (multiSort prefs s.history games none)
            none o.r1 with
        | none => Except.error ("TypeError: NoneType is not subscriptable")
        | some g1 =>
          match pick_from_top
              (multiSort prefs s.history
                (games.filter (fun g => g.appid != g1.appid)) (some g1))
              none o.r2 with
          | some g2 => Except.ok (g1, g2)
          | none => samplePair games o

lemma pick_from_top_mem_take (l : List Game) (r : Nat) (g : Game)
    (h : pick_from_top l none r = some g) :
    g ∈ l.take (max 2 (l.length / 10)) := by
  simp only [pick_from_top] at h
  split at h
  · exact absurd h (by simp)
  · exact List.get?_mem h

lemma pick_from_top_some (l : List Game) (r : Nat) (hl : l ≠ []) :
    ∃ g, pick_from_top l none r = some g ∧
      g ∈ l.take (max 2 (l.length / 10)) := by
  have htake : ¬ (l.take (max 2 (l.length / 10))).isEmpty = true := by
    simp only [List.isEmpty_iff, List.take_eq_nil_iff]
    push_neg
    exact ⟨by omega, hl⟩
  have hlen : 0 < (l.take (max 2 (l.length / 10))).length := by
    rw [List.length_pos]
    simpa [List.isEmpty_iff] using htake
  refine ⟨(l.take (max 2 (l.length / 10))).get
      ⟨r % (l.take (max 2 (l.length / 10))).length, Nat.mod_lt r hlen⟩,
    ?_, List.get_mem _ _ _⟩
  simp only [pick_from_top]
  rw [if_neg htake, List.get?_eq_get (Nat.mod_lt r hlen)]

lemma multiSort_perm (prefs : Prefs) (hist : List HistoryEntry)
    (games : List Game) (g1 : Option Game) :
    List.Perm (multiSort prefs hist games g1) games :=
  List.perm_insertionSort _ _

lemma multiSort_ne_nil (prefs : Prefs) (hist : List HistoryEntry)
    (games : List Game) (g1 : Option Game) (h : games ≠ []) :
    multiSort prefs hist games g1 ≠ [] := by
  intro h0
  have hperm := multiSort_perm prefs hist games g1
  rw [h0] at hperm
  exact h hperm.nil_eq.symm

lemma multiSort_mem (prefs : Prefs) (hist : List HistoryEntry)
    (games : List Game) (g1 : Option Game) (g : Game)
    (h : g ∈ multiSort prefs hist games g1) : g ∈ games :=
  (multiSort_perm prefs hist games g1).mem_iff.mp h

lemma storeGames_appid_nodup (s : State)
    (hkeys : ∀ p ∈ s.store, p.2.appid = p.1)
    (hnd : (s.store.map (fun p => p.1)).Nodup) :
    ((s.store.map (fun p => p.2)).map (fun g => g.appid)).Nodup := by
  rw [List.map_map]
  have heq : s.store.map ((fun g => g.appid) ∘ (fun p => p.2)) =
      s.store.map (fun p => p.1) :=
    List.map_congr_left (fun p hp => hkeys p hp)
  rw [heq]
  exact hnd

lemma candidateGames_sublist (store : List (String × Game))
    (genres : List (String × GenreRec)) (genre : Option String)
    (games : List Game)
    (h : candidateGames store genres genre = Except.ok games) :
    List.Sublist games (store.map (fun p => p.2)) := by
  rcases genre with _ | gn
  · simp only [candidateGames, Except.ok.injEq] at h
    exact h ▸ List.Sublist.refl _
  · simp only [candidateGames] at h
    by_cases hgn : gn = ""
    · rw [if_pos hgn] at h
      simp at h
      exact h ▸ List.Sublist.refl _
    · rw [if_neg hgn] at h
      cases hlk : genres.lookup gn <;> rw [hlk] at h <;> simp at h
      exact h ▸ List.filter_sublist _

lemma candidateGames_appid_nodup (s : State)
    (genres : List (String × GenreRec)) (genre : Option String)
    (games : List Game)
    (hkeys : ∀ p ∈ s.store, p.2.appid = p.1)
    (hnd : (s.store.map (fun p => p.1)).Nodup)
    (h : candidateGames s.store genres genre = Except.ok games) :
    (games.map (fun g => g.appid)).Nodup :=
  List.Nodup.sublist
    ((candidateGames_sublist s.store genres genre games h).map _)
    (storeGames_appid_nodup s hkeys hnd)

lemma lookup_mem (st : List (String × Game)) (c : String) (g : Game)
    (h : st.lookup c = some g) : (c, g) ∈ st := by
  obtain ⟨l1, l2, rfl, -⟩ := List.lookup_eq_some_iff.mp h
  simp

lemma challengerLookup_some (st : List (String × Game))
    (ch : Option String) (c : String) (g : Game)
    (h : challengerLookup st ch = some (c, g)) :
    st.lookup c = some g := by
  rcases ch with _ | cq
  · simp [challengerLookup] at h
  · simp only [challengerLookup] at h
    by_cases hc : cq = ""
    · rw [if_pos hc] at h
      simp at h
    · rw [if_neg hc] at h
      cases hlk : st.lookup cq <;> rw [hlk] at h <;> simp at h
      obtain ⟨rfl, rfl⟩ := h
      exact hlk

lemma sample2_distinct (l : List Game) (i j : Nat) (a b : Game)
    (hnd : (l.map (fun g => g.appid)).Nodup)
    (h : sample2 l i j = some (a, b)) : a.appid ≠ b.appid := by
  unfold sample2 at h
  split at h
  case isTrue h2 =>
    simp only [Option.some.injEq, Prod.mk.injEq] at h
    obtain ⟨ha, hb⟩ := h
    intro heq
    have hi : i % l.length < l.length := Nat.mod_lt i (by omega)
    have hj : pos2 l.length (i % l.length) j < l.length :=
      pos2_lt l.length (i % l.length) j h2
    have hmapi : i % l.length < (l.map (fun g => g.appid)).length := by
      simpa using hi
    have hmapj : pos2 l.length (i % l.length) j <
        (l.map (fun g => g.appid)).length := by
      simpa using hj
    have hget : (l.map (fun g => g.appid)).get ⟨i % l.length, hmapi⟩ =
        (l.map (fun g => g.appid)).get
          ⟨pos2 l.length (i % l.length) j, hmapj⟩ := by
      simp only [List.get_eq_getElem, List.getElem_map]
      simp only [List.get_eq_getElem] at ha hb
      rw [ha, hb]
      exact heq
    have hfin := hnd.get_inj_iff.mp hget
    rw [Fin.mk.injEq] at hfin
    exact pos2_ne l.length (i % l.length) j h2 hi hfin.symm
  case isFalse => simp at h

lemma samplePair_distinct (games : List Game) (o : Oracle) (g1 g2 : Game)
    (hnd : (games.map (fun g => g.appid)).Nodup)
    (h : samplePair games o = Except.ok (g1, g2)) : g1.appid ≠ g2.appid := by
  unfold samplePair at h
  cases hs : sample2 games o.r3 o.r4 with
  | none => rw [hs] at h; simp at h
  | some p =>
    rw [hs] at h
    simp only [Except.ok.injEq] at h
    subst h
    exact sample2_distinct games o.r3 o.r4 g1 g2 hnd hs

/-- C5: with a well-formed store (each record keyed by its own appid,
keys unique) `pair` never returns two games with the same appid, and
whenever the candidate set left after the (optional) genre filter has
fewer than two games the call fails with the insufficient-candidates
error, regardless of how big the unfiltered wishlist is. -/
theorem pair_distinct_or_insufficient (s : State)
    (genres : List (String × GenreRec)) (prefs : Prefs)
    (hkeys : ∀ p ∈ s.store, p.2.appid = p.1)
    (hnd : (s.store.map (fun p => p.1)).Nodup) :
    (∀ challenger genre o g1 g2,
      pair s genres prefs challenger genre o = Except.ok (g1, g2) →
      g1.appid ≠ g2.appid) ∧
    (∀ challenger o, (s.store.map (fun p => p.2)).length < 2 →
      pair s genres prefs challenger none o =
        Except.error ("Need at least 2 games in wishlist")) ∧
    (∀ challenger o gn gr, gn ≠ "" → genres.lookup gn = some gr →
      ((s.store.map (fun p => p.2)).filter
        (fun g => gr.games.contains g.appid)).length < 2 →
      pair s genres prefs challenger (some gn) o =
        Except.error ("Need at least 2 games in wishlist")) := by
  refine ⟨?_, ?_, ?_⟩
  · intro challenger genre o g1 g2 h
    cases hcg : candidateGames s.store genres genre with
    | error e =>
      simp only [pair, hcg] at h
      exact Except.noConfusion h
    | ok games =>
      simp only [pair, hcg] at h
      by_cases hlen : games.length < 2
      · rw [if_pos hlen] at h
        simp at h
      · rw [if_neg hlen] at h
        have hgnodup : (games.map (fun g => g.appid)).Nodup :=
          candidateGames_appid_nodup s genres genre games hkeys hnd hcg
        cases hch : challengerLookup s.store challenger with
        | some cg =>
          simp only [hch] at h
          by_cases hemp : (games.filter (fun g => g.appid != cg.1)).isEmpty
          · rw [if_pos hemp] at h
            simp at h
          · rw [if_neg hemp] at h
            cases hpk : pick_from_top
                (multiSort prefs s.history
                  (games.filter (fun g => g.appid != cg.1)) (some cg.2))
                none o.r1 with
            | some gg2 =>
              simp only [hpk] at h
              simp only [Except.ok.injEq, Prod.mk.injEq] at h
              obtain ⟨rfl, rfl⟩ := h
              have hlkc : s.store.lookup cg.1 = some cg.2 :=
                challengerLookup_some s.store challenger cg.1 cg.2 hch
              have happ : cg.2.appid = cg.1 :=
                hkeys _ (lookup_mem _ _ _ hlkc)
              have hg2mem : gg2 ∈ games.filter (fun g => g.appid != cg.1) :=
                multiSort_mem _ _ _ _ _
                  (List.take_subset _ _ (pick_from_top_mem_take _ _ _ hpk))
              have hne2 : gg2.appid ≠ cg.1 :=
                bne_iff_ne.mp (List.mem_filter.mp hg2mem).2
              rw [happ]
              exact fun he => hne2 he.symm
            | none =>
              simp only [hpk] at h
              exact samplePair_distinct games o g1 g2 hgnodup h
        | none =>
          simp only [hch] at h
          cases hp1 : pick_from_top (multiSort prefs s.history games none)
              none o.r1 with
          | none =>
            simp only [hp1] at h
            exact Except.noConfusion h
          | some gg1 =>
            simp only [hp1] at h
            cases hp2 : pick_from_top
                (multiSort prefs s.history
                  (games.filter (fun g => g.appid != gg1.appid)) (some gg1))
                none o.r2 with
            | some gg2 =>
              simp only [hp2] at h
              simp only [Except.ok.injEq, Prod.mk.injEq] at h
              obtain ⟨rfl, rfl⟩ := h
              have hg2mem : gg2 ∈ games.filter
                  (fun g => g.appid != gg1.appid) :=
                multiSort_mem _ _ _ _ _
                  (List.take_subset _ _ (pick_from_top_mem_take _ _ _ hp2))
              have hne2 : gg2.appid ≠ gg1.appid :=
                bne_iff_ne.mp (List.mem_filter.mp hg2mem).2
              exact fun he => hne2 he.symm
            | none =>
              simp only [hp2] at h
              exact samplePair_distinct games o g1 g2 hgnodup h
  · intro challenger o hlen
    have hcg : candidateGames s.store genres none =
        Except.ok (s.store.map (fun p => p.2)) := rfl
    simp only [pair, hcg]
    rw [if_pos hlen]
  · intro challenger o gn gr hgn hlk hlen
    have hcg : candidateGames s.store genres (some gn) =
        Except.ok ((s.store.map (fun p => p.2)).filter
          (fun g => gr.games.contains g.appid)) := by
      simp only [candidateGames]
      rw [if_neg hgn, hlk]
    simp only [pair, hcg]
    rw [if_pos hlen]

/-- All-false preference configuration (every toggle off, default
history window), as used by witnesses. -/
def prefs0 : Prefs :=
  { prefer_close_rating := false, prefer_far_rating := false,
    prefer_lower_played := false, prefer_new_choices := false,
    choices_history_length := 30 }

/-- Witness for C5 on the concrete well-formed store. -/
theorem pair_distinct_or_insufficient_witness :
    ((∀ p ∈ s0.store, p.2.appid = p.1) ∧
      (s0.store.map (fun p => p.1)).Nodup) ∧
    (∀ challenger genre o g1 g2,
      pair s0 [] prefs0 challenger genre o = Except.ok (g1, g2) →
      g1.appid ≠ g2.appid) := by
  have hkeys : ∀ p ∈ s0.store, p.2.appid = p.1 := by
    intro p hp
    fin_cases hp <;> rfl
  have hnd : (s0.store.map (fun p => p.1)).Nodup := by
    simp [s0]
  exact ⟨⟨hkeys, hnd⟩,
    (pair_distinct_or_insufficient s0 [] prefs0 hkeys hnd).1⟩

/-- C6 (amended): when the supplied challenger appid is truthy and
present in the wishlist store (which is the code's condition for
challenger mode) and the candidate set has at least two games, the
returned pair always contains the challenger, as its first member. -/
theorem pair_challenger_included (s : State)
    (genres : List (String × GenreRec)) (prefs : Prefs) (c : String)
    (gc : Game) (genre : Option String) (games : List Game) (o : Oracle)
    (hkeys : ∀ p ∈ s.store, p.2.appid = p.1)
    (hnd : (s.store.map (fun p => p.1)).Nodup)
    (hc : c ≠ "") (hgc : s.store.lookup c = some gc)
    (hcand : candidateGames s.store genres genre = Except.ok games)
    (hlen : 2 ≤ games.length) :
    ∃ g2, pair s genres prefs (some c) genre o = Except.ok (gc, g2) := by
  have hch : challengerLookup s.store (some c) = some (c, gc) := by
    simp [challengerLookup, hc, hgc]
  have hgnodup : (games.map (fun g => g.appid)).Nodup :=
    candidateGames_appid_nodup s genres genre games hkeys hnd hcand
  have hposs : games.filter (fun g => g.appid != c) ≠ [] := by
    intro h0
    have hall : ∀ g ∈ games, g.appid = c := by
      intro g hg
      have := List.filter_eq_nil_iff.mp h0 g hg
      simpa using this
    rcases games with _ | ⟨x, _ | ⟨y, tl⟩⟩
    · simp at hlen
    · simp at hlen
    · simp only [List.map_cons, List.nodup_cons] at hgnodup
      have hxy : x.appid = y.appid := by
        rw [hall x (by simp), hall y (by simp)]
      exact hgnodup.1 (by rw [hxy]; exact List.mem_cons_self _ _)
  have hsne : multiSort prefs s.history
      (games.filter (fun g => g.appid != c)) (some gc) ≠ [] :=
    multiSort_ne_nil _ _ _ _ hposs
  obtain ⟨g2, hg2, -⟩ := pick_from_top_some
    (multiSort prefs s.history
      (games.filter (fun g => g.appid != c)) (some gc)) o.r1 hsne
  refine ⟨g2, ?_⟩
  simp only [pair, hcand, hch]
  rw [if_neg (by omega : ¬ games.length < 2)]
  rw [if_neg (by simp [List.isEmpty_iff, hposs] :
    ¬ (games.filter (fun g => g.appid != c)).isEmpty = true)]
  rw [hg2]

/-- Witness for the amended C6 on the concrete store with challenger a. -/
theorem pair_challenger_included_witness :
    ((∀ p ∈ s0.store, p.2.appid = p.1) ∧
      (s0.store.map (fun p => p.1)).Nodup ∧
      ("a" : String) ≠ "" ∧ s0.store.lookup ("a") = some gA ∧
      candidateGames s0.store [] none =
        Except.ok (s0.store.map (fun p => p.2)) ∧
      2 ≤ (s0.store.map (fun p => p.2)).length) ∧
    (∃ g2, pair s0 [] prefs0 (some ("a")) none ⟨0, 0, 0, 0⟩ =
      Except.ok (gA, g2)) := by
  have hkeys : ∀ p ∈ s0.store, p.2.appid = p.1 := by
    intro p hp
    fin_cases hp <;> rfl
  have hnd : (s0.store.map (fun p => p.1)).Nodup := by
    simp [s0]
  have hlen : 2 ≤ (s0.store.map (fun p => p.2)).length := by
    simp [s0]
  have hcand : candidateGames s0.store [] none =
      Except.ok (s0.store.map (fun p => p.2)) := rfl
  exact ⟨⟨hkeys, hnd, by decide, rfl, hcand, hlen⟩,
    pair_challenger_included s0 [] prefs0 ("a") gA none
      (s0.store.map (fun p => p.2)) ⟨0, 0, 0, 0⟩
      hkeys hnd (by decide) rfl hcand hlen⟩

/-- C6 counterexample: supplying a challenger appid that is absent from
the store silently drops into free mode, and the returned pair need not
contain the challenger: with store a, b, c and challenger Z the call
succeeds and returns the pair (a, b). -/
theorem pair_challenger_absent_counterexample :
    pair s0 [] prefs0 (some ("Z")) none ⟨0, 0, 0, 0⟩ = Except.ok (gA, gB) ∧
    gA.appid ≠ ("Z") ∧ gB.appid ≠ ("Z") := by
  refine ⟨?_, by decide, by decide⟩
  rfl

/-- Preference configuration with only `prefer_lower_played` set, as in
the C7 example. -/
def prefsLP : Prefs :=
  { prefer_close_rating := false, prefer_far_rating := false,
    prefer_lower_played := true, prefer_new_choices := false,
    choices_history_length := 30 }

lemma gameLe_prefsLP_played (hist : List HistoryEntry) (g g' : Game)
    (h : gameLe prefsLP hist none g g') : g.played ≤ g'.played := by
  have h2 : (g.played : ℝ) < g'.played ∨
      ((g.played : ℝ) = g'.played ∧ keyLe [] []) := h
  rcases h2 with hlt | ⟨heq, -⟩
  · exact le_of_lt (by exact_mod_cast hlt)
  · exact le_of_eq (by exact_mod_cast heq)

/-- C7: every top-slice pick lands in the first `max 2 (len / 10)`
entries of the sorted candidate list it draws from (for every oracle
draw), and in the 20-game `prefer_lower_played` example the first pick
is one of the first two entries of the played-ascending sorted list,
whose played count is at most that of every other candidate. -/
theorem pick_from_top_slice (l : List Game) (r : Nat) (games : List Game)
    (hist : List HistoryEntry) (r2 : Nat)
    (hl : l ≠ []) (h20 : games.length = 20) :
    (∃ g, pick_from_top l none r = some g ∧
      g ∈ l.take (max 2 (l.length / 10))) ∧
    (∃ g1, pick_from_top (multiSort prefsLP hist games none) none r2 =
        some g1 ∧
      g1 ∈ (multiSort prefsLP hist games none).take 2 ∧
      ∀ g' ∈ (multiSort prefsLP hist games none).drop 2,
        g1.played ≤ g'.played) := by
  refine ⟨pick_from_top_some l r hl, ?_⟩
  have hmlen : (multiSort prefsLP hist games none).length = 20 := by
    rw [(multiSort_perm _ _ _ _).length_eq, h20]
  have hmne : multiSort prefsLP hist games none ≠ [] := by
    intro h0
    rw [h0] at hmlen
    simp at hmlen
  obtain ⟨g1, hg1, hmem⟩ :=
    pick_from_top_some (multiSort prefsLP hist games none) r2 hmne
  have htop : max 2 ((multiSort prefsLP hist games none).length / 10) = 2 := by
    rw [hmlen]
    omega
  rw [htop] at hmem
  refine ⟨g1, hg1, hmem, ?_⟩
  have hsorted : List.Sorted (gameLe prefsLP hist none)
      (multiSort prefsLP hist games none) :=
    List.sorted_insertionSort _ _
  have hpw : List.Pairwise (gameLe prefsLP hist none)
      ((multiSort prefsLP hist games none).take 2 ++
       (multiSort prefsLP hist games none).drop 2) := by
    rw [List.take_append_drop]
    exact hsorted
  intro g' hg'
  exact gameLe_prefsLP_played hist g1 g'
    ((List.pairwise_append.mp hpw).2.2 g1 hmem g' hg')

/-- Witness for C7 on a singleton list and a 20-game candidate set. -/
theorem pick_from_top_slice_witness :
    (([gA] : List Game) ≠ [] ∧ (List.replicate 20 gA).length = 20) ∧
    ((∃ g, pick_from_top [gA] none 0 = some g ∧
      g ∈ ([gA] : List Game).take (max 2 (([gA] : List Game).length / 10))) ∧
     (∃ g1, pick_from_top (multiSort prefsLP [] (List.replicate 20 gA) none)
         none 0 = some g1 ∧
       g1 ∈ (multiSort prefsLP [] (List.replicate 20 gA) none).take 2 ∧
       ∀ g' ∈ (multiSort prefsLP [] (List.replicate 20 gA) none).drop 2,
         g1.played ≤ g'.played)) :=
  ⟨⟨by simp, by simp⟩,
    pick_from_top_slice [gA] 0 (List.replicate 20 gA) [] 0
      (by simp) (by simp)⟩

end EloRanker
